import Mathlib

/-!
# Verification of the field-mapping transformation engine

Shallow embedding of the transformation core of the
`shopware-shopify-integration` repository (Go), together with theorems
settling the frozen claims about it.

Embedding conventions:
* Go `interface{}` values holding JSON data are modelled by the tagged
  union `Value` (`Null | Bool | Int | Float | String | Array | Object`).
  Go `map[string]interface{}` is modelled as an association list
  (`ObjMap`); Go maps are unordered, so the list order of an `ObjMap` is
  a canonical presentation and is never observed by the embedded code
  except through per-key lookup and update.
* Go `float64` is modelled as `Rat`; the claims under study only depend
  on parse success/failure and on the default constants `0` / `0.0`.
* Fallible Go functions returning `error` are modelled with
  `Except GoErr _`; a Go run-time panic (which aborts the request
  instead of returning) is modelled by the distinguished error kind
  `GoErr.panic`.
* Error message strings reproduce the code's `fmt.Errorf` format
  strings; where Go wraps a library error with `%w`, only the
  constant part of the wrapped library message is reproduced.
-/

namespace ShopwareShopify

/-- A JSON-like dynamic value, modelling Go `interface{}` data produced
by `encoding/json` unmarshalling: `nil`, `bool`, numbers, `string`,
`[]interface{}` and `map[string]interface{}`.  Go numbers unmarshal to
`float64`; the engine additionally produces Go `int` values
(`strconv.Atoi`, media positions), kept as a separate constructor. -/
inductive Value where
  | null : Value
  | bool (b : Bool) : Value
  | int (n : Int) : Value
  | float (q : Rat) : Value
  | str (s : String) : Value
  | arr (xs : List Value) : Value
  | obj (fields : List (String × Value)) : Value
deriving Repr

/-- A Go `map[string]interface{}`, as an association list. -/
abbrev ObjMap := List (String × Value)

/-- Failure of an embedded Go function: either an `error` value returned
by the function (`err`) or a run-time panic (`panic`). -/
inductive GoErr where
  | err (msg : String) : GoErr
  | panic (msg : String) : GoErr
deriving Repr, DecidableEq

/-- First binding of a key in a Go map: `m[k]` together with the `ok`
flag of the comma-ok idiom (`none` = absent). -/
def objGet (m : ObjMap) (k : String) : Option Value :=
  match m with
  | [] => none
  | (k', v) :: rest => if k' = k then some v else objGet rest k

/-- Go map assignment `m[k] = v`: replace the binding of `k` if present,
otherwise add one. -/
def objSet (m : ObjMap) (k : String) (v : Value) : ObjMap :=
  match m with
  | [] => [(k, v)]
  | (k', v') :: rest => if k' = k then (k, v) :: rest else (k', v') :: objSet rest k v

/-! ## Go string helpers

The Go code manipulates paths with `strings.Split`, `strings.Contains`,
`strings.Index`, `strings.HasPrefix`/`HasSuffix` and `strconv`.  These
are embedded over `List Char` (with `String` wrappers), faithful to the
single-character separators used by the code. -/

/-- `strings.Split` on a single-character separator, over `List Char`.
`strings.Split` of the empty string yields `[""]`, and a separator at
either end yields empty fields, exactly as here. -/
def goSplitL (l : List Char) (sep : Char) : List (List Char) :=
  match l with
  | [] => [[]]
  | c :: rest =>
    if c = sep then [] :: goSplitL rest sep
    else
      match goSplitL rest sep with
      | s :: ss => (c :: s) :: ss
      | [] => [[c]]

/-- `strings.Split(s, sep)` for a one-character `sep`, as strings. -/
def goSplitS (s : String) (sep : Char) : List String :=
  (goSplitL s.toList sep).map String.mk

/-- `strings.Contains(s, c)` for a one-character needle. -/
def goContainsChar (s : String) (c : Char) : Bool :=
  s.toList.contains c

/-- Index of the first occurrence of `c` in `l` (`strings.Index` for a
one-character needle; the callers below only use it after a
`strings.Contains` guard, so the not-found value is never observed). -/
def idxOfChar (l : List Char) (c : Char) : Nat :=
  match l with
  | [] => 0
  | c' :: rest => if c' = c then 0 else idxOfChar rest c + 1

/-- Decimal digits to a number; `none` when empty or non-digit
(the success condition of `strconv.Atoi` after sign stripping). -/
def natOfDigits (l : List Char) : Option Nat :=
  if l ≠ [] ∧ l.all Char.isDigit then
    some (l.foldl (fun a c => a * 10 + (c.toNat - '0'.toNat)) 0)
  else none

/-- `strconv.Atoi`: optional sign followed by at least one decimal
digit.  (Overflow of the machine `int`, which Go reports as a range
error, is not modelled; the engine only parses short path indices.) -/
def goAtoi (s : String) : Option Int :=
  match s.toList with
  | [] => none
  | '+' :: ds => (natOfDigits ds).map Int.ofNat
  | '-' :: ds => (natOfDigits ds).map (fun n => -(n : Int))
  | ds => (natOfDigits ds).map Int.ofNat

/-- `strings.HasPrefix(s, pre)`. -/
def goStartsWith (s pre : String) : Bool :=
  goStartsL s.toList pre.toList
where
  goStartsL : List Char → List Char → Bool
  | _, [] => true
  | [], _ :: _ => false
  | c :: cs, p :: ps => c = p && goStartsL cs ps

/-- `strings.HasSuffix(s, suf)` for a one-character suffix (the only
form the code uses, on `"/"`). -/
def goEndsWithChar (s : String) (c : Char) : Bool :=
  match s.toList.getLast? with
  | some c' => c' = c
  | none => false

/-! ## Nested Path Accessor (`getNestedValue` / `setNestedValue`)

Both accessors split the path on `"."` and, for each part, branch on
`strings.Contains(part, "[") && strings.Contains(part, "]")`; in that
branch they slice `part[:Index("[")]` as the key and
`part[Index("[")+1 : Index("]")]` as the index digits and run
`strconv.Atoi` on the latter.  The logic is duplicated verbatim inside
`getNestedValue` and `setNestedValue` in the source; it is shared here
as `parsePart`. -/

/-- One parsed path segment: a plain map key, or a key with a bracketed
array index (the parsed index may be negative: the code accepts any
`strconv.Atoi` result). -/
inductive Seg where
  | plain (key : String) : Seg
  | idx (key : String) (i : Int) : Seg
deriving Repr, DecidableEq

/-- Whether a part takes the array-access branch in the source: it
contains both `[` and `]`. -/
def partIsIdx (p : String) : Bool :=
  goContainsChar p '[' && goContainsChar p ']'

/-- Segment parsing, as duplicated inside both accessors.  When the
first `]` precedes the first `[`, the Go slice expression
`part[Index("[")+1 : Index("]")]` panics. -/
def parsePart (p : String) : Except GoErr Seg :=
  if partIsIdx p then
    let cs := p.toList
    let i0 := idxOfChar cs '['
    let i1 := idxOfChar cs ']'
    if i1 < i0 + 1 then .error (.panic "runtime error: slice bounds out of range")
    else
      let key := String.mk (cs.take i0)
      let idxStr := String.mk ((cs.drop (i0 + 1)).take (i1 - (i0 + 1)))
      match goAtoi idxStr with
      | none => .error (.err ("invalid array index: " ++ idxStr))
      | some i => .ok (.idx key i)
  else .ok (.plain p)

/-- The descent loop of `getNestedValue`, over already-split parts.
`current` starts at the root object and is returned once all parts are
consumed. -/
def getParts (current : Value) (parts : List String) : Except GoErr Value :=
  match parts with
  | [] => .ok current
  | p :: rest =>
    match parsePart p with
    | .error e => .error e
    | .ok (.plain key) =>
      match current with
      | .obj m =>
        match objGet m key with
        | some v => getParts v rest
        | none => .error (.err ("field " ++ key ++ " not found"))
      | _ => .error (.err ("cannot access " ++ key ++ ": parent is not an object"))
    | .ok (.idx key i) =>
      match current with
      | .obj m =>
        match objGet m key with
        | some (.arr xs) =>
          if i < 0 ∨ i ≥ (xs.length : Int) then
            .error (.err ("array index out of bounds: " ++ toString i))
          else getParts (xs.getD i.toNat .null) rest
        | _ => .error (.err ("field " ++ key ++ " is not an array"))
      | _ => .error (.err ("cannot access " ++ key ++ ": parent is not an object"))

/-- `getNestedValue(obj, path)`. -/
def getNestedValue (obj : ObjMap) (path : String) : Except GoErr Value :=
  getParts (.obj obj) (goSplitS path '.')

/-- `make([]interface{}, n)` for `n = i + 1`: a slice of `i+1` nil
values; Go panics when the requested length is negative. -/
def mkSlice (i : Int) : Except GoErr (List Value) :=
  if i + 1 < 0 then .error (.panic "runtime error: makeslice: len out of range")
  else .ok (List.replicate (i + 1).toNat Value.null)

/-- The array-growing step of `setNestedValue`: when `index >= len(arr)`
the slice is reallocated at length `index+1` and the old contents
copied, leaving nil padding. -/
def growArr (xs : List Value) (i : Int) : List Value :=
  if i ≥ (xs.length : Int) then xs ++ List.replicate ((i + 1).toNat - xs.length) Value.null
  else xs

/-- `arr[index] = value`, panicking (as Go does) when the index is out
of range — which, after `growArr`, can only happen for a negative
index. -/
def arrStore (xs : List Value) (i : Int) (v : Value) : Except GoErr (List Value) :=
  if 0 ≤ i ∧ i < (xs.length : Int) then .ok (xs.set i.toNat v)
  else .error (.panic "runtime error: index out of range")

/-- `arr[index]` read inside the set loop, with the same panic
behaviour. -/
def arrLoad (xs : List Value) (i : Int) : Except GoErr Value :=
  if 0 ≤ i ∧ i < (xs.length : Int) then .ok (xs.getD i.toNat .null)
  else .error (.panic "runtime error: index out of range")

/-- The `if _, ok := current[key]; !ok { current[key] = make([]interface{}, index+1) }`
prelude of both indexed branches of `setNestedValue`: ensure the key is
bound (to a fresh nil-filled slice when absent). -/
def ensureKeyArr (cur : ObjMap) (key : String) (i : Int) : Except GoErr ObjMap :=
  match objGet cur key with
  | none => (mkSlice i).map (fun init => objSet cur key (.arr init))
  | some _ => .ok cur

/-- The `if arr[index] == nil { arr[index] = make(map[string]interface{}) }`
step followed by the `.(map[string]interface{})` type assertion: a nil
element becomes an empty object, an object element is used as is, and
anything else fails the assertion (`none`). -/
def elemObj : Value → Option ObjMap
  | .null => some []
  | .obj m => some m
  | _ => none

/-- The body of `setNestedValue`, over already-split parts.

The source iterates `for i := 0; i < len(parts)-1; i++` over all but
the last part and then assigns at the last part.  Inside the loop, an
indexed part ensures `current[key]` is a large-enough array, but
descends into the array element **only when `i < len(parts)-2`**; for
the second-to-last part the loop leaves `current` unchanged, so the
final assignment lands on the current object rather than inside the
array element.  The recursion below reproduces this: in the
`p :: q :: rest` case, `rest = []` means `p` is the second-to-last
part.

Go mutates the shared tree in place; values here are trees without
aliasing, so the rebuilt-on-return functional update below is
observationally the same on the success path, and on the failure path
the caller (`TransformData`) discards the partially-mutated tree. -/
def setParts (cur : ObjMap) (v : Value) (parts : List String) : Except GoErr ObjMap :=
  match parts with
  | [] => .error (.panic "runtime error: index out of range")
  | [last] =>
    match parsePart last with
    | .error e => .error e
    | .ok (.plain key) => .ok (objSet cur key v)
    | .ok (.idx key i) =>
      match ensureKeyArr cur key i with
      | .error e => .error e
      | .ok cur1 =>
        match objGet cur1 key with
        | some (.arr xs) =>
          match arrStore (growArr xs i) i v with
          | .error e => .error e
          | .ok xs2 => .ok (objSet cur1 key (.arr xs2))
        | _ => .error (.err ("field " ++ key ++ " is not an array"))
  | p :: q :: rest =>
    match parsePart p with
    | .error e => .error e
    | .ok (.plain key) =>
      let cur1 := match objGet cur key with
                  | none => objSet cur key (.obj [])
                  | some _ => cur
      match objGet cur1 key with
      | some (.obj m) =>
        match setParts m v (q :: rest) with
        | .error e => .error e
        | .ok m' => .ok (objSet cur1 key (.obj m'))
      | _ => .error (.err ("field " ++ key ++ " is not an object"))
    | .ok (.idx key i) =>
      match ensureKeyArr cur key i with
      | .error e => .error e
      | .ok cur1 =>
        match objGet cur1 key with
        | some (.arr xs) =>
          if rest.isEmpty then
            -- second-to-last part: the loop grows the array but does
            -- not descend; the last part (here `q :: rest = [q]`) is
            -- processed against the unchanged current object
            setParts (objSet cur1 key (.arr (growArr xs i))) v (q :: rest)
          else
            match arrLoad (growArr xs i) i with
            | .error e => .error e
            | .ok elem =>
              match elemObj elem with
              | some m =>
                match setParts m v (q :: rest) with
                | .error e => .error e
                | .ok m' =>
                  match arrStore (growArr xs i) i (.obj m') with
                  | .error e => .error e
                  | .ok xs2 => .ok (objSet cur1 key (.arr xs2))
              | none => .error (.err ("array element at index " ++ toString i ++ " is not an object"))
        | _ => .error (.err ("field " ++ key ++ " is not an array"))

/-- `setNestedValue(obj, path, value)`, returning the updated root
object (the source mutates `obj` in place and returns only `error`). -/
def setNestedValue (obj : ObjMap) (path : String) (v : Value) : Except GoErr ObjMap :=
  setParts obj v (goSplitS path '.')

/-! ## Value formatting and scalar parsing -/

/-- Go `fmt` rendering of a `float64` under the `%v` verb, on the `Rat`
model.  Go prints the shortest decimal representation; this model
prints integral values without a decimal point (as Go does) and other
rationals in fraction form.  No theorem depends on the non-integral
case: the claims only evaluate it on strings and integers. -/
def goFloatString (q : Rat) : String :=
  if q.den = 1 then toString q.num else toString q.num ++ "/" ++ toString q.den

mutual
/-- Go `fmt.Sprintf("%v", x)` on a dynamic JSON value: strings print
verbatim, `nil` prints `<nil>`, numbers and booleans in their usual
form, slices as space-separated bracketed lists and maps as
`map[k:v ...]`.  (Go sorts map keys when printing; an `ObjMap` is
rendered in its canonical stored order.) -/
def goString : Value → String
  | .null => "<nil>"
  | .bool true => "true"
  | .bool false => "false"
  | .int n => toString n
  | .float q => goFloatString q
  | .str s => s
  | .arr xs => "[" ++ goStringList xs ++ "]"
  | .obj m => "map[" ++ goStringPairs m ++ "]"

def goStringList : List Value → String
  | [] => ""
  | [x] => goString x
  | x :: y :: xs => goString x ++ " " ++ goStringList (y :: xs)

def goStringPairs : List (String × Value) → String
  | [] => ""
  | [(k, v)] => k ++ ":" ++ goString v
  | (k, v) :: p :: xs => k ++ ":" ++ goString v ++ " " ++ goStringPairs (p :: xs)
end

/-- Go `fmt.Sprintf("%s", x)`: verbatim for strings, `<nil>` for nil,
and a `%!s(...)` complaint for other types (rendered here through
`goString`; the engine only reaches this on string inputs). -/
def goStringS : Value → String
  | .str s => s
  | .null => "<nil>"
  | v => "%!s(" ++ goString v ++ ")"

/-- `strings.ToLower`, on the ASCII range the engine compares
against. -/
def goToLower (s : String) : String :=
  s.map Char.toLower

/-- `strconv.ParseBool`: exactly these thirteen literals. -/
def goParseBool (s : String) : Option Bool :=
  if s = "1" ∨ s = "t" ∨ s = "T" ∨ s = "TRUE" ∨ s = "true" ∨ s = "True" then some true
  else if s = "0" ∨ s = "f" ∨ s = "F" ∨ s = "FALSE" ∨ s = "false" ∨ s = "False" then some false
  else none

/-- Value of a digit string (callers check the digit condition). -/
def digitsNat (l : List Char) : Nat :=
  l.foldl (fun a c => a * 10 + (c.toNat - '0'.toNat)) 0

/-- Split a mantissa from an optional exponent part at the first `e` or
`E`. -/
def splitExp (l : List Char) : List Char × Option (List Char) :=
  match l with
  | [] => ([], none)
  | c :: rest =>
    if c = 'e' ∨ c = 'E' then ([], some rest)
    else
      let (m, e) := splitExp rest
      (c :: m, e)

/-- A signed decimal integer (for float exponents). -/
def signedDigits (l : List Char) : Option Int :=
  match l with
  | '+' :: ds => (natOfDigits ds).map Int.ofNat
  | '-' :: ds => (natOfDigits ds).map (fun n => -(n : Int))
  | ds => (natOfDigits ds).map Int.ofNat

/-- `strconv.ParseFloat(s, 64)`, modelled exactly on `Rat` for the
ordinary decimal forms `[+-]digits[.digits][(e|E)[+-]digits]` (with at
least one mantissa digit).  The special Go spellings (`Inf`, `NaN`,
hexadecimal floats, digit-separating underscores) are not modelled; the
theorems below do not depend on them.  Rounding to binary `float64` is
not modelled: the claims only depend on parse success/failure and on
the literal `0.0`. -/
def goParseFloat (s : String) : Option Rat :=
  let (neg, l1) : Bool × List Char :=
    match s.toList with
    | '-' :: rest => (true, rest)
    | '+' :: rest => (false, rest)
    | l => (false, l)
  let (mant, ex) := splitExp l1
  let mantVal : Option Rat :=
    match goSplitL mant '.' with
    | [ip] =>
      if ip ≠ [] ∧ ip.all Char.isDigit then some ((digitsNat ip : Int) : Rat) else none
    | [ip, fp] =>
      if (ip ≠ [] ∨ fp ≠ []) ∧ ip.all Char.isDigit ∧ fp.all Char.isDigit then
        some (((digitsNat ip * 10 ^ fp.length + digitsNat fp : Int) : Rat) / ((10 : Rat) ^ fp.length))
      else none
    | _ => none
  match mantVal with
  | none => none
  | some mv =>
    let expVal : Option Int :=
      match ex with
      | none => some 0
      | some el => signedDigits el
    match expVal with
    | none => none
    | some e =>
      let q := mv * (10 : Rat) ^ e
      some (if neg then -q else q)

/-- A minimal string escaper for the `encoding/json` model: quotes and
backslashes.  (Control characters and non-ASCII escaping are not
modelled; no theorem depends on them.) -/
def jsonEscape (s : String) : String :=
  String.mk (s.toList.flatMap fun c =>
    if c = '"' then ['\\', '"']
    else if c = '\\' then ['\\', '\\']
    else [c])

/-- `encoding/json` number rendering for the `Rat` float model (see
`goFloatString`). -/
def jsonNum (q : Rat) : String :=
  if q.den = 1 then toString q.num else toString q.num ++ "/" ++ toString q.den

mutual
/-- `json.Marshal` on a dynamic value.  (Go sorts map keys when
marshalling; an `ObjMap` is rendered in its canonical stored order.
Marshalling of JSON-shaped values never fails, so the error default of
the caller is unreachable.) -/
def jsonMarshal : Value → String
  | .null => "null"
  | .bool true => "true"
  | .bool false => "false"
  | .int n => toString n
  | .float q => jsonNum q
  | .str s => "\"" ++ jsonEscape s ++ "\""
  | .arr xs => "[" ++ jsonMarshalList xs ++ "]"
  | .obj m => "\x7b" ++ jsonMarshalPairs m ++ "\x7d"

def jsonMarshalList : List Value → String
  | [] => ""
  | [x] => jsonMarshal x
  | x :: y :: xs => jsonMarshal x ++ "," ++ jsonMarshalList (y :: xs)

def jsonMarshalPairs : List (String × Value) → String
  | [] => ""
  | [(k, v)] => "\"" ++ jsonEscape k ++ "\":" ++ jsonMarshal v
  | (k, v) :: p :: xs => "\"" ++ jsonEscape k ++ "\":" ++ jsonMarshal v ++ "," ++ jsonMarshalPairs (p :: xs)
end

/-! ## Transformation Dispatcher -/

/-- `convertToGraphQLGlobalID`: `gid://shopify/<ResourceType>/<ID>`. -/
def convertToGraphQLGlobalID (resourceType id : String) : String :=
  "gid://shopify/" ++ resourceType ++ "/" ++ id

/-- `convertFromGraphQLGlobalID`: split on `/`; fewer than 4 segments
is returned unchanged, otherwise the final segment is the ID. -/
def convertFromGraphQLGlobalID (globalID : String) : String :=
  let parts := goSplitS globalID '/'
  if parts.length < 4 then globalID else parts.getLastD ""

/-- A field mapping rule, as stored (`models.FieldMapping`).  The
`transform_config` column is a JSON string parsed lazily per variant;
it is modelled by its parse result: `none` when the stored string is
not valid JSON (every variant's `json.Unmarshal` then fails), `some c`
for the parsed tree. -/
structure FieldMapping where
  sourceField : String
  destField : String
  isRequired : Bool
  defaultValue : String
  transformType : String
  transformConfig : Option Value
deriving Repr

/-- The injected collaborators of `FieldMappingService`: the gorm
database handle used by `lookupEntity` (table name and id to the found
row, `none` for gorm's record-not-found; other database failures are
not modelled), and the standard `time` package used by the `format`
variant (source layout, destination layout, input to reformatted
output; `none` models a `time.Parse` error). -/
structure Svc where
  db : String → String → Option ObjMap
  timeReformat : String → String → String → Option String

/-- `json.Unmarshal` of a config tree into a `string` struct field
named `field`: absent or null leaves the zero value `""`, a JSON
string is taken verbatim, and any other shape (or an unparseable
config, or a non-object config) is an unmarshalling error, surfaced by
every variant as `invalid transform config`. -/
def cfgStr (cfg : Option Value) (field : String) : Except GoErr String :=
  match cfg with
  | some (.obj m) =>
    match objGet m field with
    | none => .ok ""
    | some (.str s) => .ok s
    | some .null => .ok ""
    | some _ => .error (.err "invalid transform config")
  | _ => .error (.err "invalid transform config")

/-- All-string object, for `map[string]string` unmarshalling. -/
def strPairs : List (String × Value) → Option (List (String × String))
  | [] => some []
  | (k, .str s) :: rest => (strPairs rest).map (fun r => (k, s) :: r)
  | _ => none

/-- `json.Unmarshal` of a config tree into a `map[string]string` field:
absent or null leaves the nil map. -/
def cfgStrMap (cfg : Option Value) (field : String) :
    Except GoErr (Option (List (String × String))) :=
  match cfg with
  | some (.obj m) =>
    match objGet m field with
    | none => .ok none
    | some .null => .ok none
    | some (.obj mm) =>
      match strPairs mm with
      | some ps => .ok (some ps)
      | none => .error (.err "invalid transform config")
    | some _ => .error (.err "invalid transform config")
  | _ => .error (.err "invalid transform config")

/-- First binding in a `map[string]string` model. -/
def strLookup (l : List (String × String)) (k : String) : Option String :=
  match l with
  | [] => none
  | (k', v) :: rest => if k' = k then some v else strLookup rest k

/-- The source-path walk of `transformSingleObject`: the final
component reads `current[path]` (nil when absent); a missing or
non-object intermediate triggers the early `return result` with the
empty result (`none` here). -/
def srcPathLookup (item : ObjMap) : List String → Option Value
  | [] => some (.obj item)
  | [p] => some ((objGet item p).getD .null)
  | p :: q :: rest =>
    match objGet item p with
    | some (.obj m) => srcPathLookup m (q :: rest)
    | _ => none

/-- The dest-path nesting of `transformSingleObject`: starting from the
empty result map, each intermediate component creates a fresh object,
so the result is a right-nested singleton chain.  (The unchecked
`.(map[string]interface{})` assertion in the source cannot fail on the
empty starting map.) -/
def destPathNest : List String → Value → ObjMap
  | [], _ => []
  | [p], mv => [(p, mv)]
  | p :: q :: rest, mv => [(p, .obj (destPathNest (q :: rest) mv))]

/-- `transformSingleObject(item, config)`. -/
def transformSingleObject (item : ObjMap) (sourcePath destPath : String)
    (mapping : Option (List (String × String))) : ObjMap :=
  let srcVal : Option Value :=
    if sourcePath = "" then some (.obj item)
    else srcPathLookup item (goSplitS sourcePath '.')
  match srcVal with
  | none => []
  | some sv =>
    let mapped : Value :=
      match mapping with
      | some mp =>
        match sv with
        | .str s =>
          match strLookup mp s with
          | some m => .str m
          | none => sv
        | _ => sv
      | none => sv
    if destPath = "" then item
    else destPathNest (goSplitS destPath '.') mapped

/-- The element loop of `transformArray`: non-object items are
skipped. -/
def transformArrayLoop (sourcePath destPath : String)
    (mapping : Option (List (String × String))) : List Value → List Value
  | [] => []
  | .obj m :: rest =>
    .obj (transformSingleObject m sourcePath destPath mapping)
      :: transformArrayLoop sourcePath destPath mapping rest
  | _ :: rest => transformArrayLoop sourcePath destPath mapping rest

/-- `transformArray(value, config)`: arrays are mapped element-wise, a
single object is promoted to a one-element array, anything else is an
error. -/
def transformArray (value : Value) (sourcePath destPath : String)
    (mapping : Option (List (String × String))) : Except GoErr Value :=
  match value with
  | .arr xs => .ok (.arr (transformArrayLoop sourcePath destPath mapping xs))
  | .obj m => .ok (.arr [.obj (transformSingleObject m sourcePath destPath mapping)])
  | _ => .error (.err "value is not an array or object")

/-- The `arrayIndexRegex` match of `extractJsonPath`: a component
matches `^([^\[]+)\[(\d+)\]$` exactly when a non-empty bracket-free key
is followed by a non-empty digit index in brackets ending the
component. -/
def jsonPathComp (comp : String) : Option (String × Nat) :=
  let cs := comp.toList
  if cs.contains '[' then
    let i0 := idxOfChar cs '['
    let key := cs.take i0
    let rest := cs.drop (i0 + 1)
    if key ≠ [] ∧ rest.getLast? = some ']' ∧ rest.dropLast ≠ [] ∧ rest.dropLast.all Char.isDigit then
      some (String.mk key, digitsNat rest.dropLast)
    else none
  else none

/-- The component loop of `extractJsonPath`. -/
def jsonPathWalk (cur : Value) : List String → Except GoErr Value
  | [] => .ok cur
  | comp :: rest =>
    let (key, idx) : String × Option Nat :=
      match jsonPathComp comp with
      | some (k, n) => (k, some n)
      | none => (comp, none)
    match cur with
    | .obj m =>
      match objGet m key with
      | some val =>
        match idx with
        | some n =>
          match val with
          | .arr xs =>
            if n < xs.length then jsonPathWalk (xs.getD n .null) rest
            else .error (.err ("array index out of bounds: " ++ toString n))
          | _ => .error (.err ("value at key " ++ key ++ " is not an array"))
        | none => jsonPathWalk val rest
      | none => .error (.err ("key " ++ key ++ " not found in object"))
    | .arr _ => .error (.err ("cannot access property " ++ key ++ " of an array"))
    | _ => .error (.err ("cannot access property " ++ key ++ " of a non-object"))

/-- `extractJsonPath(value, path)`. -/
def extractJsonPath (value : Value) (path : String) : Except GoErr Value :=
  if path = "" then .ok value
  else jsonPathWalk value (goSplitS path '.')

/-- The URL construction of `transformMedia`: prefix `base_url` only
when it is non-empty and the URL does not already start with an HTTP
scheme, inserting a `/` separator unless the base already ends with
one. -/
def goMediaURL (base url : String) : String :=
  if base ≠ "" ∧ goStartsWith url "http" = false then
    if goEndsWithChar base '/' then base ++ url else base ++ "/" ++ url
  else url

/-- One destination media record of `transformMedia` (`title` is
extracted by the source but discarded into blank identifiers). -/
def mediaItem (base : String) (i : Nat) (m : ObjMap) : Value :=
  let url : String :=
    match objGet m "url" with
    | some .null => ""
    | some v => goStringS v
    | none => ""
  let alt : String :=
    match objGet m "alt" with
    | some .null => ""
    | some v => goStringS v
    | none => ""
  .obj [("mediaContentType", .str "IMAGE"),
        ("originalSource", .str (goMediaURL base url)),
        ("alt", .str alt),
        ("position", .int (i + 1))]

/-- The element loop of `transformMedia`: non-object items are skipped
but still advance the range index used for `position`. -/
def mediaLoop (base : String) (i : Nat) : List Value → List Value
  | [] => []
  | .obj m :: rest => mediaItem base i m :: mediaLoop base (i + 1) rest
  | _ :: rest => mediaLoop base (i + 1) rest

/-- `transformMedia(value, config)`. -/
def transformMedia (value : Value) (base : String) : Except GoErr Value :=
  match value with
  | .arr xs => .ok (.arr (mediaLoop base 0 xs))
  | _ => .error (.err "media value is not an array")

/-- `createMetafield(value, config)`: wraps a value into a Shopify
metafield record; the type defaults to `string`, and unparseable
numeric values silently become `0` / `0.0`. -/
def createMetafield (value : Value) (ns key ty : String) : Except GoErr Value :=
  if ns = "" ∨ key = "" then .error (.err "metafield namespace and key are required")
  else
    let mft := if ty = "" then "string" else ty
    let mfv : Value :=
      if mft = "string" then .str (goString value)
      else if mft = "number_integer" then
        match goAtoi (goString value) with
        | some i => .int i
        | none => .int 0
      else if mft = "number_decimal" then
        match goParseFloat (goString value) with
        | some f => .float f
        | none => .float 0
      else if mft = "boolean" then
        let bs := goToLower (goString value)
        .bool (bs == "true" || bs == "1" || bs == "yes")
      else if mft = "json_string" then .str (jsonMarshal value)
      else .str (goString value)
    .ok (.obj [("namespace", .str ns), ("key", .str key),
               ("value", mfv), ("type", .str mft)])

/-- `lookupEntity(value, config)`: a point lookup against the
`manufacturer` or `category` table; record-not-found and
property-not-found fall back to the original ID, while an unsupported
entity type is an error (the source returns the ID alongside the
error, but the caller aborts on any non-nil error, so only the error
is observable). -/
def lookupEntity (svc : Svc) (value : Value) (entityType prop : String) : Except GoErr Value :=
  let strID := goString value
  if strID = "" then .error (.err "empty entity ID")
  else if entityType = "manufacturer" then
    match svc.db "manufacturer" strID with
    | none => .ok (.str strID)
    | some row =>
      match objGet row prop with
      | some p => .ok p
      | none => .ok (.str strID)
  else if entityType = "category" then
    match svc.db "category" strID with
    | none => .ok (.str strID)
    | some row =>
      match objGet row prop with
      | some p => .ok p
      | none => .ok (.str strID)
  else .error (.err ("unsupported entity type: " ++ entityType))

/-- The `convert` variant's inner switch on the configured type. -/
def convertValue (ty : String) (value : Value) : Except GoErr Value :=
  if ty = "string" then .ok (.str (goString value))
  else if ty = "int" then
    match value with
    | .str s =>
      match goAtoi s with
      | some i => .ok (.int i)
      | none => .error (.err ("error converting to int: parsing " ++ s ++ ": invalid syntax"))
    | _ => .error (.err "value is not a string")
  else if ty = "float" then
    match value with
    | .str s =>
      match goParseFloat s with
      | some f => .ok (.float f)
      | none => .error (.err ("error converting to float: parsing " ++ s ++ ": invalid syntax"))
    | _ => .error (.err "value is not a string")
  else if ty = "bool" then
    match value with
    | .str s =>
      match goParseBool s with
      | some b => .ok (.bool b)
      | none => .error (.err ("error converting to bool: parsing " ++ s ++ ": invalid syntax"))
    | _ => .error (.err "value is not a string")
  else .error (.err ("unsupported conversion type: " ++ ty))

/-- `applyTransformation(value, mapping)`: dispatch on
`mapping.TransformType`.  Note the switch has **no** `conditional`
case although `models.TransformationTypeConditional` is declared, so
that type (like any unknown tag) falls into the default unsupported
branch. -/
def applyTransformation (svc : Svc) (value : Value) (m : FieldMapping) : Except GoErr Value :=
  if m.transformType = "none" then .ok value
  else if m.transformType = "format" then
    match cfgStr m.transformConfig "source_format" with
    | .error e => .error e
    | .ok sf =>
      match cfgStr m.transformConfig "dest_format" with
      | .error e => .error e
      | .ok df =>
        match value with
        | .str s =>
          match svc.timeReformat sf df s with
          | some out => .ok (.str out)
          | none => .error (.err "error parsing date")
        | _ => .error (.err "value is not a string")
  else if m.transformType = "convert" then
    match cfgStr m.transformConfig "type" with
    | .error e => .error e
    | .ok ty => convertValue ty value
  else if m.transformType = "map" then
    match m.transformConfig with
    | some (.obj cm) =>
      let strValue := goString value
      match objGet cm strValue with
      | some mapped => .ok mapped
      | none =>
        match objGet cm "_default" with
        | some dv => .ok dv
        | none => .error (.err ("no mapping found for value: " ++ strValue))
    | _ => .error (.err "invalid transform config")
  else if m.transformType = "template" then
    match cfgStr m.transformConfig "template" with
    | .error e => .error e
    | .ok tpl => .ok (.str (tpl.replace "\x7b\x7bvalue\x7d\x7d" (goString value)))
  else if m.transformType = "graphql_id" then
    match cfgStr m.transformConfig "resource_type" with
    | .error e => .error e
    | .ok rt =>
      match cfgStr m.transformConfig "direction" with
      | .error e => .error e
      | .ok dir =>
        match value with
        | .str s =>
          if dir = "to_global" then .ok (.str (convertToGraphQLGlobalID rt s))
          else if dir = "from_global" then .ok (.str (convertFromGraphQLGlobalID s))
          else .error (.err ("invalid direction: " ++ dir))
        | _ => .error (.err "value is not a string")
  else if m.transformType = "array_map" then
    match cfgStr m.transformConfig "source_path" with
    | .error e => .error e
    | .ok sp =>
      match cfgStr m.transformConfig "dest_path" with
      | .error e => .error e
      | .ok dp =>
        match cfgStrMap m.transformConfig "mapping" with
        | .error e => .error e
        | .ok mp => transformArray value sp dp mp
  else if m.transformType = "json_path" then
    match cfgStr m.transformConfig "path" with
    | .error e => .error e
    | .ok p => extractJsonPath value p
  else if m.transformType = "media_map" then
    match cfgStr m.transformConfig "base_url" with
    | .error e => .error e
    | .ok base => transformMedia value base
  else if m.transformType = "metafield" then
    match cfgStr m.transformConfig "namespace" with
    | .error e => .error e
    | .ok ns =>
      match cfgStr m.transformConfig "key" with
      | .error e => .error e
      | .ok key =>
        match cfgStr m.transformConfig "type" with
        | .error e => .error e
        | .ok ty => createMetafield value ns key ty
  else if m.transformType = "entity_lookup" then
    match cfgStr m.transformConfig "entity_type" with
    | .error e => .error e
    | .ok et =>
      match cfgStr m.transformConfig "property" with
      | .error e => .error e
      | .ok prop => lookupEntity svc value et prop
  else .error (.err ("unsupported transformation type: " ++ m.transformType))

/-! ## Mapping Pipeline (`TransformData`) -/

/-- The result struct of `TransformData`: the failure returns leave
`Data` at its zero value (the nil map, `none` here) and set only
`Error`. -/
structure MappingResult where
  data : Option ObjMap
  error : Option String
deriving Repr

/-- Outcome of processing one field mapping in the loop body of
`TransformData`. -/
inductive StepRes where
  | abort (msg : String) : StepRes
  | skip : StepRes
  | write (dest : ObjMap) : StepRes
  | gopanic (msg : String) : StepRes
deriving Repr

/-- The transform-and-set tail of the loop body, after the source value
has been resolved. -/
def stepApply (svc : Svc) (dest : ObjMap) (m : FieldMapping) (v : Value) : StepRes :=
  match applyTransformation svc v m with
  | .error (.panic p) => .gopanic p
  | .error (.err e) => .abort ("error transforming field " ++ m.sourceField ++ ": " ++ e)
  | .ok tv =>
    match setNestedValue dest m.destField tv with
    | .error (.panic p) => .gopanic p
    | .error (.err e) => .abort ("error setting field " ++ m.destField ++ ": " ++ e)
    | .ok dest' => .write dest'

/-- One iteration of the `TransformData` loop: resolve the source
field; on a (returned) lookup error, a required mapping aborts the
run, a non-empty default substitutes, and otherwise the rule is
skipped. -/
def stepMapping (svc : Svc) (src : ObjMap) (dest : ObjMap) (m : FieldMapping) : StepRes :=
  match getNestedValue src m.sourceField with
  | .error (.panic p) => .gopanic p
  | .error (.err _) =>
    if m.isRequired then
      .abort ("required field " ++ m.sourceField ++ " not found in source data")
    else if m.defaultValue ≠ "" then stepApply svc dest m (.str m.defaultValue)
    else .skip
  | .ok v => stepApply svc dest m v

/-- State of the loop over a list of mappings: still building, aborted
with an error, or panicked. -/
inductive FoldRes where
  | going (dest : ObjMap) : FoldRes
  | aborted (msg : String) : FoldRes
  | panicked (msg : String) : FoldRes
deriving Repr

/-- The `TransformData` loop over the mapping list. -/
def foldMappings (svc : Svc) (src : ObjMap) : List FieldMapping → ObjMap → FoldRes
  | [], dest => .going dest
  | m :: rest, dest =>
    match stepMapping svc src dest m with
    | .gopanic p => .panicked p
    | .abort msg => .aborted msg
    | .skip => foldMappings svc src rest dest
    | .write dest' => foldMappings svc src rest dest'

/-- `TransformData(dataflowID, sourceData)` after the mappings have
been listed and the source JSON parsed: runs the loop from the empty
destination object.  A completed loop returns the destination with no
error; an abort returns only the error (`Data` stays nil); a Go panic
produces no `MappingResult` at all (`Except.error`). -/
def transformData (svc : Svc) (src : ObjMap) (mappings : List FieldMapping) :
    Except String MappingResult :=
  match foldMappings svc src mappings [] with
  | .going dest => .ok ⟨some dest, none⟩
  | .aborted msg => .ok ⟨none, some msg⟩
  | .panicked p => .error p

/-! ## Migration lifecycle -/

/-- `models.MigrationLog`, restricted to the fields touched by the two
handlers (`MigrationStatus` is a string type, so a callback can carry
any string). -/
structure MigrationLog where
  status : String
  destIdentifier : String
  errorMessage : String
  transformedPayload : String
  completedAt : Option Nat
deriving Repr

/-- The JSON body bound by `UpdateMigrationStatus`. -/
structure StatusRequest where
  status : String
  destIdentifier : String
  errorMessage : String
  transformedData : String
deriving Repr

/-- `UpdateMigrationStatus`, after the log row has been loaded: the
requested status is copied **unconditionally**; the optional fields
overwrite only when non-empty; a terminal status stamps `CompletedAt`
with the current time (`now`). -/
def updateMigrationStatus (now : Nat) (log : MigrationLog) (r : StatusRequest) : MigrationLog :=
  let l1 : MigrationLog := { log with status := r.status }
  let l2 := if r.destIdentifier ≠ "" then { l1 with destIdentifier := r.destIdentifier } else l1
  let l3 := if r.errorMessage ≠ "" then { l2 with errorMessage := r.errorMessage } else l2
  let l4 := if r.transformedData ≠ "" then { l3 with transformedPayload := r.transformedData } else l3
  if r.status = "success" ∨ r.status = "failed" then { l4 with completedAt := some now }
  else l4

/-- The per-dataflow handoff of `HandleShopwareWebhook`: a log is
created in `pending`; a failed `StartExecution` moves it to `failed`,
a successful one to `in_progress`. -/
def handoffStatus (executionOk : Bool) : String :=
  if executionOk then "in_progress" else "failed"

/-- The statuses a log passes through under a sequence of
`UpdateMigrationStatus` callbacks (the status after each callback). -/
def statusTrace (now : Nat) (log : MigrationLog) : List StatusRequest → List String
  | [] => []
  | r :: rs =>
    let l' := updateMigrationStatus now log r
    l'.status :: statusTrace now l' rs

/-- A terminal migration status. -/
def isTerminal (s : String) : Prop :=
  s = "success" ∨ s = "failed"

/-- The invariant `TransformData` maintains on its returned
`MappingResult`: exactly one of `Data` and `Error` is set. -/
def resultShapeOk (r : MappingResult) : Prop :=
  (r.data = none ∧ r.error ≠ none) ∨ (r.data ≠ none ∧ r.error = none)

/-- Spec-side description of one `media_map` output record, following
the claim's words: one `{mediaContentType, originalSource, alt,
position}` record per input element, 1-based position, `base_url`
prefixing for non-absolute URLs (compare `mediaItem`, which is
translated from the source). -/
def specMediaItem (base : String) (i : Nat) (v : Value) : Value :=
  let url : String :=
    match v with
    | .obj m => match objGet m "url" with
                | some (.str u) => u
                | _ => ""
    | _ => ""
  let alt : String :=
    match v with
    | .obj m => match objGet m "alt" with
                | some (.str a) => a
                | _ => ""
    | _ => ""
  .obj [("mediaContentType", .str "IMAGE"),
        ("originalSource", .str (goMediaURL base url)),
        ("alt", .str alt),
        ("position", .int (i + 1))]

/-- The claim's record shape for `media_map` inputs: an object whose
`url` and `alt` fields are present strings (`title` unconstrained). -/
def isMediaRecord (v : Value) : Prop :=
  ∃ m u a, v = .obj m ∧ objGet m "url" = some (.str u) ∧ objGet m "alt" = some (.str a)

/-- The side condition of the get/set round trip: the second-to-last
path part (the one followed by exactly one more part), when it exists,
does not take the array-access branch.  (For such parts the set loop
grows the array but does not descend into it, so the final write lands
on the wrong node — see `c1_counterexample`.) -/
def sndLastOk : List String → Bool
  | p :: q :: rest => (if rest.isEmpty then !partIsIdx p else true) && sndLastOk (q :: rest)
  | _ => true

/-- A service with an empty side table and a date collaborator that
never parses: the simplest concrete `Svc` for witnesses. -/
def emptySvc : Svc :=
  ⟨fun _ _ => none, fun _ _ _ => none⟩

/-- Spec-side element loop for `media_map` (see `specMediaItem`). -/
def specMediaLoop (base : String) (i : Nat) : List Value → List Value
  | [] => []
  | it :: rest => specMediaItem base i it :: specMediaLoop base (i + 1) rest

/-! ## Helper lemmas -/

theorem objGet_objSet_self (m : ObjMap) (k : String) (v : Value) :
    objGet (objSet m k v) k = some v := by
  induction m with
  | nil => simp [objGet, objSet]
  | cons hd tl ih =>
    obtain ⟨k', v'⟩ := hd
    by_cases h : k' = k
    · simp [objGet, objSet, h]
    · simp [objGet, objSet, h, ih]

theorem parsePart_idx_isIdx {p key : String} {i : Int}
    (h : parsePart p = .ok (.idx key i)) : partIsIdx p = true := by
  by_cases hp : partIsIdx p = true
  · exact hp
  · simp only [parsePart, hp] at h
    simp at h

theorem getD_set_self (xs : List Value) (n : Nat) (v d : Value) (h : n < xs.length) :
    (xs.set n v).getD n d = v := by
  induction xs generalizing n with
  | nil => simp at h
  | cons x xs ih =>
    cases n with
    | zero => simp [List.set, List.getD]
    | succ m =>
      simp only [List.set, List.getD_cons_succ]
      exact ih m (by simpa using h)

/-- Whenever the set loop succeeds, the subsequent get of the same
parts finds the written value — provided the second-to-last part is
not an indexed one (cf. `sndLastOk`). -/
theorem getParts_of_setParts :
    ∀ (parts : List String) (cur cur' : ObjMap) (v : Value),
      sndLastOk parts = true →
      setParts cur v parts = .ok cur' →
      getParts (.obj cur') parts = .ok v
  | [], _, _, _, _, hset => by simp [setParts] at hset
  | [last], cur, cur', v, _, hset => by
    simp only [setParts] at hset
    split at hset
    · cases hset
    · -- plain final part
      next key hp =>
      injection hset with h
      subst h
      simp [getParts, hp, objGet_objSet_self]
    · -- indexed final part
      next key i hp =>
      split at hset
      · cases hset
      · next cur1 hcur1 =>
        split at hset
        · next xs hxs =>
          split at hset
          · cases hset
          · next xs2 hstore =>
            injection hset with h
            subst h
            simp only [arrStore] at hstore
            split at hstore
            · next hbound =>
              injection hstore with h2
              subst h2
              have hlen : i.toNat < (growArr xs i).length := by omega
              simp only [getParts, hp, objGet_objSet_self, List.length_set]
              rw [if_neg (by omega)]
              rw [getD_set_self _ _ _ _ hlen]
            · cases hstore
        · cases hset
  | p :: q :: rest, cur, cur', v, hok, hset => by
    simp only [sndLastOk, Bool.and_eq_true] at hok
    obtain ⟨hok1, hok2⟩ := hok
    simp only [setParts] at hset
    split at hset
    · cases hset
    · -- plain intermediate part
      next key hp =>
      split at hset
      · next m hm =>
        split at hset
        · cases hset
        · next m' hrec =>
          injection hset with h
          subst h
          simp only [getParts, hp, objGet_objSet_self]
          exact getParts_of_setParts (q :: rest) _ _ _ hok2 hrec
      · cases hset
    · -- indexed intermediate part
      next key i hp =>
      split at hset
      · cases hset
      · next cur1 hcur1 =>
        split at hset
        · next xs hxs =>
          by_cases hre : rest.isEmpty
          · -- indexed second-to-last part: excluded by sndLastOk
            rw [if_pos hre] at hset
            rw [hre] at hok1
            simp only [if_true] at hok1
            have hidx := parsePart_idx_isIdx hp
            simp [hidx] at hok1
          · rw [if_neg hre] at hset
            split at hset
            · cases hset
            · next elem hload =>
              split at hset
              · next m hm =>
                split at hset
                · cases hset
                · next m' hrec =>
                  split at hset
                  · cases hset
                  · next xs2 hstore =>
                    injection hset with h
                    subst h
                    simp only [arrStore] at hstore
                    split at hstore
                    · next hbound =>
                      injection hstore with h2
                      subst h2
                      have hlen : i.toNat < (growArr xs i).length := by omega
                      simp only [getParts, hp, objGet_objSet_self, List.length_set]
                      rw [if_neg (by omega)]
                      rw [getD_set_self _ _ _ _ hlen]
                      exact getParts_of_setParts (q :: rest) _ _ _ hok2 hrec
                    · cases hstore
              · cases hset
        · cases hset

theorem goSplitL_ne_nil (l : List Char) (sep : Char) : goSplitL l sep ≠ [] := by
  induction l with
  | nil => simp [goSplitL]
  | cons c rest ih =>
    by_cases h : c = sep
    · simp [goSplitL, h]
    · simp only [goSplitL, if_neg h]
      cases hr : goSplitL rest sep with
      | nil => simp
      | cons s ss => simp

theorem goSplitL_append (a b : List Char) (sep : Char) :
    goSplitL (a ++ sep :: b) sep = goSplitL a sep ++ goSplitL b sep := by
  induction a with
  | nil => simp [goSplitL]
  | cons c a ih =>
    by_cases h : c = sep
    · simp [goSplitL, h, ih]
    · simp only [List.cons_append, goSplitL, if_neg h, List.append_eq]
      rw [ih]
      cases ha : goSplitL a sep with
      | nil => exact absurd ha (goSplitL_ne_nil a sep)
      | cons s ss => simp

theorem goSplitL_no_sep (l : List Char) (sep : Char) (h : l.contains sep = false) :
    goSplitL l sep = [l] := by
  induction l with
  | nil => simp [goSplitL]
  | cons c rest ih =>
    simp only [List.contains_cons, Bool.or_eq_false_iff] at h
    obtain ⟨h1, h2⟩ := h
    have hc : ¬ c = sep := by
      intro hh
      subst hh
      simp at h1
    simp [goSplitL, hc, ih h2]

theorem strMk_toList (s : String) : String.mk s.toList = s := by
  cases s
  rfl

theorem strToList_append (a b : String) : (a ++ b).toList = a.toList ++ b.toList := by
  cases a
  cases b
  rfl

theorem getLastD_concat (xs : List String) (x d : String) : (xs ++ [x]).getLastD d = x := by
  induction xs with
  | nil => rfl
  | cons y ys ih =>
    cases ys with
    | nil => rfl
    | cons z zs => simpa using ih

theorem foldMappings_append (svc : Svc) (src : ObjMap) (xs ys : List FieldMapping) (d : ObjMap) :
    foldMappings svc src (xs ++ ys) d =
      match foldMappings svc src xs d with
      | .going d' => foldMappings svc src ys d'
      | r => r := by
  induction xs generalizing d with
  | nil => simp [foldMappings]
  | cons m rest ih =>
    simp only [List.cons_append, foldMappings]
    cases stepMapping svc src d m with
    | gopanic p => rfl
    | abort msg => rfl
    | skip => exact ih d
    | write d' => exact ih d'

theorem updateMigrationStatus_status (now : Nat) (log : MigrationLog) (r : StatusRequest) :
    (updateMigrationStatus now log r).status = r.status := by
  unfold updateMigrationStatus
  split <;> split <;> split <;> split <;> rfl

theorem mediaLoop_spec (base : String) :
    ∀ (items : List Value) (i : Nat),
      (∀ it ∈ items, isMediaRecord it) →
      mediaLoop base i items = specMediaLoop base i items := by
  intro items
  induction items with
  | nil => intro i _; rfl
  | cons it rest ih =>
    intro i hrec
    obtain ⟨m, u, a, heq, hu, ha⟩ := hrec it (by simp)
    subst heq
    simp only [mediaLoop, specMediaLoop]
    rw [ih (i + 1) (fun x hx => hrec x (by simp [hx]))]
    simp [mediaItem, specMediaItem, hu, ha, goStringS]

/-! ## Claim theorems -/

/-- C1 (amended): for every destination tree `T`, path `P` and value
`V`, if `setNestedValue T P V` succeeds and the second-to-last segment
of `P` is not an array-indexed one, then `getNestedValue` on the
updated tree at `P` returns the written value.  (The original claim,
quantifying over all well-formed paths, fails when the second-to-last
segment is indexed — see `c1_counterexample`.) -/
theorem c1_set_get_roundtrip (T : ObjMap) (P : String) (V : Value) (T' : ObjMap)
    (hok : sndLastOk (goSplitS P '.') = true)
    (hset : setNestedValue T P V = .ok T') :
    getNestedValue T' P = .ok V :=
  getParts_of_setParts (goSplitS P '.') T T' V hok hset

/-- Witness for `c1_set_get_roundtrip` at `set({}, "seo.title", "Foo")`. -/
theorem c1_witness :
    sndLastOk (goSplitS "seo.title" '.') = true
    ∧ getNestedValue [("seo", .obj [("title", .str "Foo")])] "seo.title" = .ok (.str "Foo") :=
  ⟨rfl, c1_set_get_roundtrip [] "seo.title" (.str "Foo")
          [("seo", .obj [("title", .str "Foo")])] rfl rfl⟩

/-- C1 (counterexample): on the empty tree and the previously-unset
well-formed path `a[0].b`, `setNestedValue` succeeds but writes the
leaf at the root key `b` instead of inside the array element, so the
subsequent get at the same path fails instead of returning the written
value. -/
theorem c1_counterexample :
    setNestedValue [] "a[0].b" (.str "x") = .ok [("a", .arr [.null]), ("b", .str "x")]
    ∧ getNestedValue [("a", .arr [.null]), ("b", .str "x")] "a[0].b"
        = .error (.err "cannot access b: parent is not an object") :=
  ⟨rfl, rfl⟩

/-- C2: a required field mapping whose source field is absent aborts
`TransformData` immediately with the single error naming the field;
the result does not depend on any rule after the failing one, and it
carries no destination writes. -/
theorem c2_required_fail_fast (svc : Svc) (src : ObjMap) (pre post : List FieldMapping)
    (r : FieldMapping) (d0 : ObjMap) (e : String)
    (hpre : foldMappings svc src pre [] = .going d0)
    (hreq : r.isRequired = true)
    (hmiss : getNestedValue src r.sourceField = .error (.err e)) :
    transformData svc src (pre ++ r :: post)
      = .ok ⟨none, some ("required field " ++ r.sourceField ++ " not found in source data")⟩ := by
  unfold transformData
  rw [foldMappings_append, hpre]
  simp only [foldMappings, stepMapping, hmiss, hreq, if_true]

/-- Witness for `c2_required_fail_fast`: one succeeding rule, then a
required missing one, then a trailing rule that is never reached. -/
theorem c2_witness :
    transformData emptySvc [("a", Value.str "1")]
        ([⟨"a", "x", false, "", "none", none⟩]
          ++ (⟨"b", "y", true, "", "none", none⟩ : FieldMapping)
            :: [⟨"c", "z", false, "", "none", none⟩])
      = .ok ⟨none, some "required field b not found in source data"⟩ :=
  c2_required_fail_fast emptySvc [("a", Value.str "1")]
    [⟨"a", "x", false, "", "none", none⟩] [⟨"c", "z", false, "", "none", none⟩]
    ⟨"b", "y", true, "", "none", none⟩ [("x", Value.str "1")] "field b not found"
    rfl rfl rfl

/-- C3 (code bug): `models.TransformationTypeConditional` is declared
and the claimed first-match conditional semantics exist only in the
client-side preview; the Go dispatcher has no `conditional` case, so
`applyTransformation` rejects any conditional rule through its default
branch as an unsupported transformation type. -/
theorem c3_conditional_unsupported :
    applyTransformation emptySvc (.str "5")
        ⟨"price", "status", false, "", "conditional",
         some (.obj [("conditions", .arr [.obj [("operator", .str "greater_than"),
                                                ("value", .int 3),
                                                ("result", .str "HIGH")]]),
                     ("default", .str "LOW")])⟩
      = .error (.err "unsupported transformation type: conditional") :=
  rfl

/-- C4 (amended): `UpdateMigrationStatus` copies the callback's status
unconditionally, so the never-revisit property only holds when every
asynchronous callback carries a terminal status: under that restriction
every status the log passes through is terminal, hence `pending` and
`in_progress` are never re-entered. -/
theorem c4_terminal_callbacks_stay_terminal (now : Nat) (log : MigrationLog)
    (reqs : List StatusRequest)
    (hterm : ∀ r ∈ reqs, isTerminal r.status) :
    ∀ s ∈ statusTrace now log reqs, isTerminal s := by
  induction reqs generalizing log with
  | nil => simp [statusTrace]
  | cons r rs ih =>
    intro s hs
    simp only [statusTrace, List.mem_cons] at hs
    rcases hs with h | h
    · rw [h, updateMigrationStatus_status]
      exact hterm r (by simp)
    · exact ih (updateMigrationStatus now log r) (fun r' hr' => hterm r' (by simp [hr'])) s h

/-- Witness for `c4_terminal_callbacks_stay_terminal`: a `success` and
then a `failed` callback applied to an `in_progress` log. -/
theorem c4_witness :
    (∀ r ∈ [(⟨"success", "gid-9", "", "payload"⟩ : StatusRequest),
            ⟨"failed", "", "boom", ""⟩], isTerminal r.status)
    ∧ ∀ s ∈ statusTrace 3 ⟨"in_progress", "", "", "", none⟩
          [⟨"success", "gid-9", "", "payload"⟩, ⟨"failed", "", "boom", ""⟩], isTerminal s :=
  ⟨by
    intro r hr
    fin_cases hr
    · exact Or.inl rfl
    · exact Or.inr rfl,
   c4_terminal_callbacks_stay_terminal 3 _ _ (by
    intro r hr
    fin_cases hr
    · exact Or.inl rfl
    · exact Or.inr rfl)⟩

/-- C4 (counterexample): a log already in the terminal `success` state
that receives a callback carrying `in_progress` re-enters
`in_progress` — `UpdateMigrationStatus` enforces no transition
guard. -/
theorem c4_counterexample :
    (updateMigrationStatus 6 ⟨"success", "gid-1", "", "", some 5⟩
        ⟨"in_progress", "", "", ""⟩).status = "in_progress" :=
  rfl

/-- C5: converting an ID to a GraphQL global ID and back round-trips
for every non-empty ID without `/`, and any input splitting into fewer
than 4 `/`-separated segments is returned unchanged by
`convertFromGraphQLGlobalID`. -/
theorem c5_graphql_id_roundtrip :
    (∀ resourceType id : String, id ≠ "" → goContainsChar id '/' = false →
        convertFromGraphQLGlobalID (convertToGraphQLGlobalID resourceType id) = id)
    ∧ (∀ s : String, (goSplitS s '/').length < 4 → convertFromGraphQLGlobalID s = s) := by
  constructor
  · intro rt id _ hns
    have hsplit : goSplitL (convertToGraphQLGlobalID rt id).toList '/'
        = goSplitL "gid://shopify".toList '/' ++ (goSplitL rt.toList '/' ++ [id.toList]) := by
      have h1 : (convertToGraphQLGlobalID rt id).toList
          = "gid://shopify".toList ++ '/' :: (rt.toList ++ '/' :: id.toList) := by
        unfold convertToGraphQLGlobalID
        rw [strToList_append, strToList_append, strToList_append]
        rw [show ("gid://shopify/" : String).toList = "gid://shopify".toList ++ ['/'] from by decide]
        rw [show ("/" : String).toList = ['/'] from rfl]
        simp [List.append_assoc]
      rw [h1, goSplitL_append, goSplitL_append]
      rw [goSplitL_no_sep id.toList '/' hns]
    have hpre : goSplitL "gid://shopify".toList '/' = ["gid:".toList, [], "shopify".toList] := by
      decide
    unfold convertFromGraphQLGlobalID goSplitS
    rw [hsplit, hpre]
    have hlen : ¬ ((["gid:".toList, [], "shopify".toList]
        ++ (goSplitL rt.toList '/' ++ [id.toList])).map String.mk).length < 4 := by
      simp only [List.length_map, List.length_append, List.length_cons]
      have := goSplitL_ne_nil rt.toList '/'
      have : (goSplitL rt.toList '/').length ≥ 1 := List.length_pos.mpr this
      simp
      omega
    rw [if_neg hlen]
    rw [show List.map String.mk (["gid:".toList, [], "shopify".toList]
            ++ (goSplitL rt.toList '/' ++ [id.toList]))
          = (List.map String.mk ["gid:".toList, [], "shopify".toList]
              ++ List.map String.mk (goSplitL rt.toList '/')) ++ [String.mk id.toList] from by simp]
    rw [getLastD_concat, strMk_toList]
  · intro s hlen
    unfold convertFromGraphQLGlobalID
    simp only [hlen, if_pos]

/-- Witness for `c5_graphql_id_roundtrip` at `Product`/`12345` and at a
short non-global input. -/
theorem c5_witness :
    convertFromGraphQLGlobalID (convertToGraphQLGlobalID "Product" "12345") = "12345"
    ∧ convertFromGraphQLGlobalID "just-an-id" = "just-an-id" :=
  ⟨c5_graphql_id_roundtrip.1 "Product" "12345" (by decide) (by decide),
   c5_graphql_id_roundtrip.2 "just-an-id" (by decide)⟩

/-- C6 (amended): for a supported entity type (`manufacturer` or
`category`), an unresolved lookup — record not found, or property not
found on the found row — makes `applyTransformation` return the
original ID string without an error.  (The original claim also
included unsupported entity types, but those return an error and abort
the pipeline — see `c6_counterexample`.) -/
theorem c6_unresolved_lookup_returns_id (svc : Svc) (v : Value) (et prop : String)
    (sf df dvl : String) (req : Bool)
    (hsup : et = "manufacturer" ∨ et = "category")
    (hid : goString v ≠ "")
    (hmiss : ∀ row, svc.db et (goString v) = some row → objGet row prop = none) :
    applyTransformation svc v
        ⟨sf, df, req, dvl, "entity_lookup",
         some (.obj [("entity_type", .str et), ("property", .str prop)])⟩
      = .ok (.str (goString v)) := by
  have hcfg1 : cfgStr (some (.obj [("entity_type", .str et), ("property", .str prop)]))
      "entity_type" = .ok et := by
    simp [cfgStr, objGet]
  have hcfg2 : cfgStr (some (.obj [("entity_type", .str et), ("property", .str prop)]))
      "property" = .ok prop := by
    simp [cfgStr, objGet]
  simp only [applyTransformation, hcfg1, hcfg2, String.reduceEq, reduceIte]
  unfold lookupEntity
  rw [if_neg hid]
  rcases hsup with h | h <;> subst h
  · rw [if_pos rfl]
    cases hdb : svc.db "manufacturer" (goString v) with
    | none => rfl
    | some row => simp [hmiss row hdb]
  · rw [if_neg (by decide), if_pos rfl]
    cases hdb : svc.db "category" (goString v) with
    | none => rfl
    | some row => simp [hmiss row hdb]

/-- Witness for `c6_unresolved_lookup_returns_id`: an empty side table
and a manufacturer lookup. -/
theorem c6_witness :
    applyTransformation emptySvc (.str "m1")
        ⟨"manufacturerId", "vendor", false, "", "entity_lookup",
         some (.obj [("entity_type", .str "manufacturer"), ("property", .str "name")])⟩
      = .ok (.str "m1") :=
  c6_unresolved_lookup_returns_id emptySvc (.str "m1") "manufacturer" "name"
    "manufacturerId" "vendor" "" false (Or.inl rfl) (by decide)
    (fun row h => by simp [emptySvc] at h)

/-- C6 (counterexample): an unsupported entity type (here `product`)
does not fall back to the original ID without error — `lookupEntity`
returns an `unsupported entity type` error, which aborts the mapping
pipeline. -/
theorem c6_counterexample :
    applyTransformation emptySvc (.str "prod-1")
        ⟨"categoryId", "collection", false, "", "entity_lookup",
         some (.obj [("entity_type", .str "product"), ("property", .str "name")])⟩
      = .error (.err "unsupported entity type: product") :=
  rfl

/-- C7 (amended): `TransformData` returns the fully-built destination
tree with no error on success, and on failure only the terminal error:
the `Data` field of a failing result is nil, the partially-built
destination document is discarded rather than returned.  (The original
claim said the partial tree accompanies the error — see
`c7_counterexample`.) -/
theorem c7_failure_discards_partial (svc : Svc) (src : ObjMap) (ms : List FieldMapping)
    (r : MappingResult) (h : transformData svc src ms = .ok r) : resultShapeOk r := by
  unfold transformData at h
  cases hf : foldMappings svc src ms [] <;> rw [hf] at h
  · injection h with h'
    subst h'
    right
    simp
  · injection h with h'
    subst h'
    left
    simp
  · cases h

/-- Witness for `c7_failure_discards_partial` at a failing run. -/
theorem c7_witness :
    resultShapeOk ⟨none, some "required field b not found in source data"⟩ :=
  c7_failure_discards_partial emptySvc [("a", Value.str "1")]
    [⟨"a", "x", false, "", "none", none⟩, ⟨"b", "y", true, "", "none", none⟩] _ rfl

/-- C7 (counterexample): a run whose first rule succeeds (it would
have written `x`) and whose second rule fails returns `Data = none`,
not the partially-built tree `[("x", "1")]` the claim promises. -/
theorem c7_counterexample :
    transformData emptySvc [("a", Value.str "1")]
        [⟨"a", "x", false, "", "none", none⟩, ⟨"b", "y", true, "", "none", none⟩]
      = .ok ⟨none, some "required field b not found in source data"⟩
    ∧ foldMappings emptySvc [("a", Value.str "1")] [⟨"a", "x", false, "", "none", none⟩] []
        = .going [("x", Value.str "1")] :=
  ⟨rfl, rfl⟩

/-- C8: on an array of `{url, alt, title?}` records, `media_map`
produces one `{mediaContentType: "IMAGE", originalSource, alt,
position}` record per element with 1-based positions, where
`originalSource` leaves absolute URLs (those starting with an HTTP
scheme) unchanged and otherwise prepends the non-empty `base_url`
(with a `/` separator unless the base already ends in one). -/
theorem c8_media_map_shape (base : String) (items : List Value)
    (hrec : ∀ it ∈ items, isMediaRecord it) :
    transformMedia (.arr items) base = .ok (.arr (specMediaLoop base 0 items))
    ∧ (∀ u : String, goStartsWith u "http" = true → goMediaURL base u = u)
    ∧ (∀ u : String, goStartsWith u "http" = false → base ≠ "" →
        goMediaURL base u
          = if goEndsWithChar base '/' then base ++ u else base ++ "/" ++ u) := by
  refine ⟨?_, ?_, ?_⟩
  · simp only [transformMedia]
    rw [mediaLoop_spec base items 0 hrec]
  · intro u hu
    unfold goMediaURL
    rw [if_neg]
    simp [hu]
  · intro u hu hb
    unfold goMediaURL
    rw [if_pos ⟨hb, hu⟩]

/-- Witness for `c8_media_map_shape`: one relative and one absolute
URL. -/
theorem c8_witness :
    transformMedia
        (.arr [.obj [("url", .str "img/a.png"), ("alt", .str "A")],
               .obj [("url", .str "http://other/b.png"), ("alt", .str "B"),
                     ("title", .str "T")]])
        "https://cdn.example.com"
      = .ok (.arr
          [.obj [("mediaContentType", .str "IMAGE"),
                 ("originalSource", .str "https://cdn.example.com/img/a.png"),
                 ("alt", .str "A"), ("position", .int 1)],
           .obj [("mediaContentType", .str "IMAGE"),
                 ("originalSource", .str "http://other/b.png"),
                 ("alt", .str "B"), ("position", .int 2)]]) :=
  (c8_media_map_shape "https://cdn.example.com"
      [.obj [("url", .str "img/a.png"), ("alt", .str "A")],
       .obj [("url", .str "http://other/b.png"), ("alt", .str "B"), ("title", .str "T")]]
      (by
        intro it hit
        simp only [List.mem_cons, List.mem_singleton] at hit
        rcases hit with h | h | h
        · subst h; exact ⟨_, _, _, rfl, rfl, rfl⟩
        · subst h; exact ⟨_, _, _, rfl, rfl, rfl⟩
        · cases h)).1

/-- C9 (implicit): the metafield transform never errors for non-empty
namespace and key, always returning a `{namespace, key, value, type}`
record; unparseable `number_integer` and `number_decimal` inputs
silently coerce to `0` and `0.0`, whereas the `convert` transform
errors on the same unparseable input. -/
theorem c9_metafield_never_errors (v : Value) (ns key ty : String)
    (hns : ns ≠ "") (hkey : key ≠ "") :
    (∃ mv, createMetafield v ns key ty
        = .ok (.obj [("namespace", .str ns), ("key", .str key), ("value", mv),
                     ("type", .str (if ty = "" then "string" else ty))]))
    ∧ (ty = "number_integer" → goAtoi (goString v) = none →
        createMetafield v ns key ty
          = .ok (.obj [("namespace", .str ns), ("key", .str key), ("value", .int 0),
                       ("type", .str ty)]))
    ∧ (ty = "number_decimal" → goParseFloat (goString v) = none →
        createMetafield v ns key ty
          = .ok (.obj [("namespace", .str ns), ("key", .str key), ("value", .float 0),
                       ("type", .str ty)]))
    ∧ (∀ s : String, goAtoi s = none →
        convertValue "int" (.str s)
          = .error (.err ("error converting to int: parsing " ++ s ++ ": invalid syntax"))) := by
  have hcond : ¬ (ns = "" ∨ key = "") := by tauto
  refine ⟨?_, ?_, ?_, ?_⟩
  · unfold createMetafield
    rw [if_neg hcond]
    exact ⟨_, rfl⟩
  · intro hty hnone
    subst hty
    unfold createMetafield
    rw [if_neg hcond]
    simp [hnone]
  · intro hty hnone
    subst hty
    unfold createMetafield
    rw [if_neg hcond]
    simp [hnone]
  · intro s hnone
    unfold convertValue
    simp [hnone]

/-- Witness for `c9_metafield_never_errors` on the unparseable input
`"abc"`. -/
theorem c9_witness :
    createMetafield (.str "abc") "dimensions" "width" "number_integer"
      = .ok (.obj [("namespace", .str "dimensions"), ("key", .str "width"),
                   ("value", .int 0), ("type", .str "number_integer")])
    ∧ convertValue "int" (.str "abc")
        = .error (.err "error converting to int: parsing abc: invalid syntax") :=
  ⟨(c9_metafield_never_errors (.str "abc") "dimensions" "width" "number_integer"
      (by decide) (by decide)).2.1 rfl rfl,
   (c9_metafield_never_errors (.str "abc") "dimensions" "width" "number_integer"
      (by decide) (by decide)).2.2.2 "abc" rfl⟩

/-- C10 (code bug): a path whose bracketed index parses as a negative
integer does not produce a returned error — `setNestedValue` creates
an empty slice for the key, skips the growth branch (`-1 >= len` is
false) and reaches the out-of-range store `arr[-1] = value`, a Go
run-time panic. -/
theorem c10_negative_index_panics :
    setNestedValue [] "items[-1]" (.str "x")
      = .error (.panic "runtime error: index out of range") :=
  rfl

end ShopwareShopify
